import Mathlib

/-!
Shallow embedding of the Typst package facade generator
(`src/typacker.py` and the export-generation section of `src/pack.py`).

Text is modelled as `List Char`.  File contents use `'\n'`-terminated
lines, matching what Python's `readline` yields on files whose newlines
are `'\n'` (the universal-newline translation of `'\r'` variants is not
modelled).  Python's `\s` character class and `str.strip` are modelled on
their ASCII whitespace subset.  Filesystem paths are modelled as lists of
components; redirect destinations are interpreted as POSIX relative
paths (an absolute destination replacing the base, a `pathlib` corner
case, is outside the modelled domain).
-/

/-- Convenience conversion from a string literal to its character list. -/
def chs (s : String) : List Char := s.data

/-- ASCII whitespace, as matched by Python's `\s` and stripped by `str.strip`. -/
def isPyWs (c : Char) : Bool :=
  c = ' ' || c = '\t' || c = '\n' || c = '\r' || c = '\x0b' || c = '\x0c'

/-- First character of the identifier grammar `[A-Za-z_][A-Za-z0-9\-_]*`. -/
def isIdentStart (c : Char) : Bool :=
  ('A' ≤ c && c ≤ 'Z') || ('a' ≤ c && c ≤ 'z') || c = '_'

/-- Continuation character of the identifier grammar. -/
def isIdentCont (c : Char) : Bool :=
  ('A' ≤ c && c ≤ 'Z') || ('a' ≤ c && c ≤ 'z') || ('0' ≤ c && c ≤ '9') ||
    c = '-' || c = '_'

/-- Python `str.strip()`: remove leading and trailing whitespace. -/
def pyStrip (l : List Char) : List Char :=
  ((l.dropWhile isPyWs).reverse.dropWhile isPyWs).reverse

/-- Match a literal character sequence at the start of the input and
return the remainder, or `none` when the literal is not a prefix. -/
def dropLit : List Char → List Char → Option (List Char)
  | [], l => some l
  | _ :: _, [] => none
  | p :: ps, c :: cs => if c = p then dropLit ps cs else none

/-- Regex `\s*`: drop all leading whitespace (greedy; exact here because in
every use site the following literal cannot match a whitespace character). -/
def dropWs (l : List Char) : List Char := l.dropWhile isPyWs

/-- Regex `\s+`: require at least one whitespace character, then drop the
whole run, returning the remainder. -/
def dropWs1 (l : List Char) : Option (List Char) :=
  match l with
  | [] => none
  | c :: rest => if isPyWs c then some (rest.dropWhile isPyWs) else none

/-- Regex `[A-Za-z_][A-Za-z0-9\-_]*`: take a maximal identifier at the start
of the input, returning it with the remainder. -/
def takeIdent (l : List Char) : Option (List Char × List Char) :=
  match l with
  | [] => none
  | c :: rest =>
    if isIdentStart c then
      some (c :: rest.takeWhile isIdentCont, rest.dropWhile isIdentCont)
    else none

/-- Regex `^\/\/\s*->\s+` from `export_file_re`, plus the caller's
`line[match.end():].strip()`: on success return the redirect destination
text (the remainder after the matched prefix, stripped). -/
def matchRedirect (l : List Char) : Option (List Char) :=
  (dropLit (chs "//") l).bind fun r1 =>
  (dropLit (chs "->") (dropWs r1)).bind fun r2 =>
  (dropWs1 r2).map fun r3 => pyStrip r3

/-- Public item declaration: `name` plus optional alias, as in the
`PublicItem` dataclass (the source field `alias` is a Lean keyword, hence
`aliasOpt`). -/
structure PublicItem where
  name : List Char
  aliasOpt : Option (List Char)
deriving DecidableEq, Repr

/-- Tail of `public_item_re` after the optional alias group: `\s*\*\/\s*`
followed by the captured `name` identifier. -/
def finishItem (al : Option (List Char)) (r : List Char) : Option PublicItem :=
  (dropLit (chs "*/") (dropWs r)).bind fun r2 =>
  (takeIdent (dropWs r2)).map fun nr => ⟨nr.1, al⟩

/-- Optional alias group `(?:\s+as\s+(?P<alias>ident))?` of `public_item_re`:
returns the captured alias and the remainder when the whole group matches. -/
def aliasTry (r : List Char) : Option (List Char × List Char) :=
  (dropWs1 r).bind fun a1 =>
  (dropLit (chs "as") a1).bind fun a2 =>
  (dropWs1 a2).bind fun a3 => takeIdent a3

/-- Regex `public_item_re` applied with `re.match`:
`^#let\s*\/\*\s*pub(?:\s+as\s+(?P<alias>ident))?\s*\*\/\s*(?P<name>ident)`.
The committed choice on the alias group is exact: whenever the group's
`\s+as` matched, the group-free alternative would need `\s*\*\/` to match at
a position holding `a`, which is impossible, and the greedy identifier and
whitespace runs can never backtrack usefully because the following literal
characters (`*`, `a`, identifier start) are outside the classes consumed. -/
def matchPublicItem (l : List Char) : Option PublicItem :=
  (dropLit (chs "#let") l).bind fun r1 =>
  (dropLit (chs "/*") (dropWs r1)).bind fun r2 =>
  (dropLit (chs "pub") (dropWs r2)).bind fun r3 =>
  match aliasTry r3 with
  | some (al, r4) => finishItem (some al) r4
  | none => finishItem none r3

/-- Split raw file content into the line list produced by repeated
`f.readline()` calls: each line keeps its trailing `'\n'`; a final
unterminated fragment is kept; the terminating empty read is not listed. -/
def pyReadlinesAux : List Char → List Char → List (List Char)
  | [], acc => if acc.isEmpty then [] else [acc.reverse]
  | c :: rest, acc =>
    if c = '\n' then (acc.reverse ++ ['\n']) :: pyReadlinesAux rest []
    else pyReadlinesAux rest (c :: acc)

/-- Content of a file as the list of lines `readline` yields. -/
def pyReadlines (cs : List Char) : List (List Char) := pyReadlinesAux cs []

/-- Test `line.startswith("///")` used by the module-doc scan. -/
def isDocLine (l : List Char) : Bool :=
  match l with
  | '/' :: '/' :: '/' :: _ => true
  | _ => false

/-- Parsed record of one implementation file: the optional redirect
destination, the stripped module doc block, and the public items in
declaration order. -/
structure ParseResult where
  redirect : Option (List Char)
  doc : List Char
  items : List PublicItem
deriving DecidableEq, Repr

/-- Annotation parser over the `readline` line list, following the loop in
`generate_export` exactly: line 1 feeds only the redirect check (the doc
loop's first `readline` overwrites it unconditionally); the doc scan takes
`///` lines from line 2 on; every remaining line, starting with the line
that ended the doc scan, is tested against the declaration pattern. -/
def parseLines (ls : List (List Char)) : ParseResult :=
  let l1 := ls.headD []
  let rest := ls.tail
  let docLines := rest.takeWhile (fun l => isDocLine l)
  let afterDoc := rest.drop docLines.length
  { redirect := matchRedirect l1
    doc := pyStrip docLines.flatten
    items := afterDoc.filterMap matchPublicItem }

/-- Path as a list of components, the `parts` of a `pathlib` path relative
to the project root. -/
abbrev PathC := List (List Char)

/-- Helper for `splitPosix`: split on `'/'`, accumulating the current
component in reverse. -/
def splitSlashAux : List Char → List Char → PathC
  | [], acc => [acc.reverse]
  | c :: rest, acc =>
    if c = '/' then acc.reverse :: splitSlashAux rest [] else splitSlashAux rest (c :: acc)

/-- Components `pathlib` derives from a POSIX relative path string: split on
`'/'`, dropping empty components and single dots. -/
def splitPosix (cs : List Char) : PathC :=
  (splitSlashAux cs []).filter (fun c => ¬(c = [] ∨ c = chs "."))

/-- Rendering `as_posix()` of a relative path: components joined by `'/'`,
and `"."` for the empty path. -/
def renderPosix : PathC → List Char
  | [] => chs "."
  | [c] => c
  | c :: c2 :: rest => c ++ '/' :: renderPosix (c2 :: rest)

/-- The `".."` path component. -/
def dotdot : List Char := chs ".."

/-- Length of the longest common prefix of two component lists. -/
def commonPrefixLen : PathC → PathC → Nat
  | a :: as_, b :: bs => if a = b then commonPrefixLen as_ bs + 1 else 0
  | _, _ => 0

/-- Semantics of `PurePath.relative_to(other, walk_up=True)` on relative
paths: with `k` the longest common prefix, the result is one `".."` per
remaining component of `other` followed by the remainder of `self`; a
`ValueError` (here `none`) is raised exactly when walking up would pop a
literal `".."` component of `other` before the common prefix is reached,
which for `self` free of `".."` is exactly when `other` keeps a `".."`
past the common prefix. -/
def relativeWalkUp (self other : PathC) : Option PathC :=
  let k := commonPrefixLen self other
  if dotdot ∈ other.drop k then none
  else some (List.replicate (other.length - k) dotdot ++ self.drop k)

/-- Resolution of a relative path from a base directory, each `".."`
discarding the last component of the accumulated path ("walk-up"). -/
def resolveRel (base : PathC) (rel : PathC) : PathC :=
  rel.foldl (fun acc c => if c = dotdot then acc.dropLast else acc ++ [c]) base

/-- Iterated `List.dropLast`. -/
def dropLastN : Nat → PathC → PathC
  | 0, l => l
  | n + 1, l => dropLastN n l.dropLast

/-- The public source root `src`, relative to the project root. -/
def srcP : PathC := [chs "src"]

/-- The implementation root `src/_impl`, relative to the project root. -/
def implP : PathC := [chs "src", chs "_impl"]

/-- Facade path resolution from `generate_export`: a matched redirect
destination joins onto `src` verbatim, otherwise the facade mirrors the
implementation file's path relative to `src/_impl`, one level up. -/
def exportFileFor (implRel : PathC) (red : Option (List Char)) : PathC :=
  match red with
  | some dest => srcP ++ splitPosix dest
  | none => srcP ++ implRel

/-- The machine-generated-file disclaimer line written at the end of every
facade. -/
def disclaimer : List Char :=
  chs "// This is a program-generated file. Do not edit it directly.\n"

/-- Facade writer: the exact byte sequence the `export_file.open("w")`
block of `generate_export` produces from the module doc, public items and
rendered relative import path. -/
def facadeText (moduleDoc : List Char) (items : List PublicItem) (relPosix : List Char) : List Char :=
  (if moduleDoc.isEmpty then [] else moduleDoc ++ chs "\n\n") ++
  (chs "#import \"" ++ relPosix ++ chs "\": (\n") ++
  items.foldl (fun acc it =>
    match it with
    | ⟨nm, none⟩ => acc ++ (chs "  " ++ nm ++ chs ",\n")
    | ⟨nm, some al⟩ => acc ++ (chs "  " ++ nm ++ chs " as " ++ al ++ chs ",\n")) [] ++
  chs ")\n\n" ++ disclaimer

/-- Outcome of processing one implementation file: skipped (zero public
items), a facade write, or the uncaught `ValueError` from
`relative_to(..., walk_up=True)` when the export directory keeps a `".."`
component past the common prefix. -/
inductive FileOut where
  | skip : FileOut
  | write : PathC → List Char → FileOut
  | crash : FileOut
deriving DecidableEq, Repr

/-- Effects of one loop iteration of `generate_export`: the directory
created by `export_dir.mkdir(exist_ok=True, parents=True)` — performed
before the doc/declaration scan — and the outcome. -/
structure FileEffect where
  mkdirDir : PathC
  out : FileOut
deriving DecidableEq, Repr

/-- One iteration of the `generate_export` loop on an implementation file
given by its path relative to `src/_impl` and its raw content. -/
def processFile (implRel : PathC) (content : List Char) : FileEffect :=
  let ls := pyReadlines content
  let pr := parseLines ls
  let exportFile := exportFileFor implRel pr.redirect
  let exportDir := exportFile.dropLast
  if pr.items.isEmpty then ⟨exportDir, .skip⟩
  else
    match relativeWalkUp (implP ++ implRel) exportDir with
    | none => ⟨exportDir, .crash⟩
    | some rel => ⟨exportDir, .write exportFile (facadeText pr.doc pr.items (renderPosix rel))⟩

/-- Accumulated effects of a run over the enumerated implementation files:
directories created, facade files written (path and content, in order), and
whether the run died on an uncaught `ValueError` (in which case effects of
later files are absent). -/
structure RunResult where
  mkdirs : List PathC
  writes : List (PathC × List Char)
  crashed : Bool
deriving DecidableEq, Repr

/-- The `impl_dir.glob("**/*.typ")` loop of `generate_export`, file by file. -/
def runFiles : List (PathC × List Char) → RunResult
  | [] => ⟨[], [], false⟩
  | (r, c) :: rest =>
    let e := processFile r c
    match e.out with
    | .crash => ⟨[e.mkdirDir], [], true⟩
    | .skip =>
      let t := runFiles rest
      ⟨e.mkdirDir :: t.mkdirs, t.writes, t.crashed⟩
    | .write p x =>
      let t := runFiles rest
      ⟨e.mkdirDir :: t.mkdirs, (p, x) :: t.writes, t.crashed⟩

/-- Project state: presence of the `typst.toml` metadata file, presence of
the `src/_impl` directory, and the enumerated implementation files (path
relative to `src/_impl`, raw content). -/
structure Project where
  hasToml : Bool
  hasImplDir : Bool
  implFiles : List (PathC × List Char)

/-- Structural validation `ensure_typst_project`: raises
`FileNotFoundError` (modelled as `Except.error` with the message) when the
metadata file or the implementation subdirectory is missing. -/
def ensure_typst_project (p : Project) : Except (List Char) Unit :=
  if ¬p.hasToml then
    .error (chs "`typst.toml` not found in project directory. Not a valid Typst package.")
  else if ¬p.hasImplDir then
    .error (chs "`src/_impl` directory not found in project directory. Not a valid Typst package.")
  else .ok ()

/-- The `generate_export` entry point: validate the project, then process
every implementation file. -/
def generate_export (p : Project) : Except (List Char) RunResult :=
  match ensure_typst_project p with
  | .error e => .error e
  | .ok _ => .ok (runFiles p.implFiles)

/-- Filesystem contents, a partial map from project-relative paths to file
bytes. -/
abbrev FileSys := PathC → Option (List Char)

/-- Point update of a filesystem by one file write (mode `"w"`: full
overwrite). -/
def fsUpdate (fs : FileSys) (p : PathC) (v : List Char) : FileSys :=
  fun q => if q = p then some v else fs q

/-- Application of a run's facade writes to a filesystem, in order. -/
def applyWrites (fs : FileSys) : List (PathC × List Char) → FileSys
  | [] => fs
  | w :: ws => applyWrites (fsUpdate fs w.1 w.2) ws

/-- Filesystem after an invocation of `generate_export`: a structural error
aborts before any facade is written, otherwise all writes (up to a possible
mid-run crash, already truncated inside `RunResult`) are applied. -/
def runOnFS (fs : FileSys) (p : Project) : FileSys :=
  match generate_export p with
  | .error _ => fs
  | .ok r => applyWrites fs r.writes

/-- Last write to a given path in a write list, if any. -/
def lastVal : List (PathC × List Char) → PathC → Option (List Char)
  | [], _ => none
  | w :: ws, q =>
    match lastVal ws q with
    | some v => some v
    | none => if w.1 = q then some w.2 else none

/-- Annotation parsing as inlined in the `__main__` export section of
`src/pack.py` (lines 26-53), which duplicates the `generate_export` loop of
`typacker.py`: identical regexes, identical line scanning. -/
def packParseLines (ls : List (List Char)) : ParseResult :=
  let l1 := ls.headD []
  let rest := ls.tail
  let docLines := rest.takeWhile (fun l => isDocLine l)
  let afterDoc := rest.drop docLines.length
  { redirect := matchRedirect l1
    doc := pyStrip docLines.flatten
    items := afterDoc.filterMap matchPublicItem }

/-- Facade path resolution as inlined in `src/pack.py` (lines 28-31). -/
def packExportFileFor (implRel : PathC) (red : Option (List Char)) : PathC :=
  match red with
  | some dest => srcP ++ splitPosix dest
  | none => srcP ++ implRel

/-- Facade writer as inlined in `src/pack.py` (lines 63-78). -/
def packFacadeText (moduleDoc : List Char) (items : List PublicItem) (relPosix : List Char) : List Char :=
  (if moduleDoc.isEmpty then [] else moduleDoc ++ chs "\n\n") ++
  (chs "#import \"" ++ relPosix ++ chs "\": (\n") ++
  items.foldl (fun acc it =>
    match it with
    | ⟨nm, none⟩ => acc ++ (chs "  " ++ nm ++ chs ",\n")
    | ⟨nm, some al⟩ => acc ++ (chs "  " ++ nm ++ chs " as " ++ al ++ chs ",\n")) [] ++
  chs ")\n\n" ++ disclaimer

/-- One iteration of the `src/pack.py` export loop. -/
def packProcessFile (implRel : PathC) (content : List Char) : FileEffect :=
  let ls := pyReadlines content
  let pr := packParseLines ls
  let exportFile := packExportFileFor implRel pr.redirect
  let exportDir := exportFile.dropLast
  if pr.items.isEmpty then ⟨exportDir, .skip⟩
  else
    match relativeWalkUp (implP ++ implRel) exportDir with
    | none => ⟨exportDir, .crash⟩
    | some rel => ⟨exportDir, .write exportFile (packFacadeText pr.doc pr.items (renderPosix rel))⟩

/-- The full export-generation section of `src/pack.py` (lines 21-78),
which runs over the enumerated implementation files with no project
validation beforehand. -/
def packRunFiles : List (PathC × List Char) → RunResult
  | [] => ⟨[], [], false⟩
  | (r, c) :: rest =>
    let e := packProcessFile r c
    match e.out with
    | .crash => ⟨[e.mkdirDir], [], true⟩
    | .skip =>
      let t := packRunFiles rest
      ⟨e.mkdirDir :: t.mkdirs, t.writes, t.crashed⟩
    | .write p x =>
      let t := packRunFiles rest
      ⟨e.mkdirDir :: t.mkdirs, (p, x) :: t.writes, t.crashed⟩

/-- Claim-side rendering of one import-list entry: two spaces, the name,
`" as alias"` when an alias is present, a comma, a newline. -/
def itemLine (it : PublicItem) : List Char :=
  match it with
  | ⟨nm, none⟩ => chs "  " ++ nm ++ chs ",\n"
  | ⟨nm, some al⟩ => chs "  " ++ nm ++ chs " as " ++ al ++ chs ",\n"

/-- Result of the `__main__` script of `src/pack.py` through its export
section and the metadata load at line 81: the export effects, and whether
the script survived to load `typst.toml` (its `toml.load` raises
`FileNotFoundError` when the file is missing, but only after the export
loop has already run). -/
structure ScriptResult where
  run : RunResult
  tomlLoaded : Bool
deriving DecidableEq, Repr

/-- The `src/pack.py` script up to and including the metadata load: it has
no structural validation.  The export loop (lines 21-78) runs first — a
missing `src/_impl` just makes `impl_dir.glob("**/*.typ")` enumerate
nothing, without error — and only afterwards (line 81) is `typst.toml`
opened, which raises when the file is missing or when the loop had already
died on an uncaught `ValueError`. -/
def packMain (p : Project) : ScriptResult :=
  let files := if p.hasImplDir then p.implFiles else []
  let r := packRunFiles files
  ⟨r, !r.crashed && p.hasToml⟩

/-- The item loop of the facade writer appends exactly one `itemLine` per
item, in order. -/
theorem foldl_itemLine (items : List PublicItem) (acc : List Char) :
    items.foldl (fun acc it =>
      match it with
      | ⟨nm, none⟩ => acc ++ (chs "  " ++ nm ++ chs ",\n")
      | ⟨nm, some al⟩ => acc ++ (chs "  " ++ nm ++ chs " as " ++ al ++ chs ",\n")) acc
      = acc ++ (items.map itemLine).flatten := by
  induction items generalizing acc with
  | nil => simp
  | cons it rest ih =>
    cases it with
    | mk nm alo =>
      cases alo with
      | none =>
        rw [List.foldl_cons, ih]
        simp [itemLine]
      | some al =>
        rw [List.foldl_cons, ih]
        simp [itemLine]

/-- A path never written keeps its filesystem value. -/
theorem applyWrites_frame (ws : List (PathC × List Char)) (fs : FileSys) (q : PathC)
    (h : ∀ w ∈ ws, w.1 ≠ q) : applyWrites fs ws q = fs q := by
  induction ws generalizing fs with
  | nil => rfl
  | cons w ws ih =>
    have hw : w.1 ≠ q := h w (List.mem_cons_self w ws)
    have hrec := ih (fsUpdate fs w.1 w.2) (fun x hx => h x (List.mem_cons_of_mem w hx))
    simp only [applyWrites]
    rw [hrec]
    simp only [fsUpdate]
    rw [if_neg (Ne.symm hw)]

/-- Evaluation of a write list at a path: the last write wins, the prior
contents otherwise. -/
theorem applyWrites_eval (ws : List (PathC × List Char)) (fs : FileSys) (q : PathC) :
    applyWrites fs ws q = match lastVal ws q with | some v => some v | none => fs q := by
  induction ws generalizing fs with
  | nil => rfl
  | cons w ws ih =>
    simp only [applyWrites, lastVal, ih]
    cases hl : lastVal ws q with
    | some v => simp [hl]
    | none =>
      simp only [hl, fsUpdate]
      by_cases hq : w.1 = q
      · simp [hq]
      · rw [if_neg hq, if_neg (Ne.symm hq)]

/-- Re-applying the same write list changes nothing. -/
theorem applyWrites_idem (ws : List (PathC × List Char)) (fs : FileSys) (q : PathC) :
    applyWrites (applyWrites fs ws) ws q = applyWrites fs ws q := by
  rw [applyWrites_eval ws (applyWrites fs ws) q, applyWrites_eval ws fs q]
  cases hl : lastVal ws q <;> simp [hl]

/-- The common prefix is no longer than the first path. -/
theorem commonPrefixLen_le_left : ∀ a b : PathC, commonPrefixLen a b ≤ a.length := by
  intro a
  induction a with
  | nil => intro b; cases b <;> simp [commonPrefixLen]
  | cons x xs ih =>
    intro b
    cases b with
    | nil => simp [commonPrefixLen]
    | cons y ys =>
      simp only [commonPrefixLen]
      by_cases h : x = y
      · simp only [if_pos h, List.length_cons]
        exact Nat.succ_le_succ (ih ys)
      · simp [if_neg h]

/-- The common prefix is no longer than the second path. -/
theorem commonPrefixLen_le_right : ∀ a b : PathC, commonPrefixLen a b ≤ b.length := by
  intro a
  induction a with
  | nil => intro b; cases b <;> simp [commonPrefixLen]
  | cons x xs ih =>
    intro b
    cases b with
    | nil => simp [commonPrefixLen]
    | cons y ys =>
      simp only [commonPrefixLen]
      by_cases h : x = y
      · simp only [if_pos h, List.length_cons]
        exact Nat.succ_le_succ (ih ys)
      · simp [if_neg h]

/-- Both paths agree on their common prefix. -/
theorem take_commonPrefixLen_eq : ∀ a b : PathC,
    a.take (commonPrefixLen a b) = b.take (commonPrefixLen a b) := by
  intro a
  induction a with
  | nil => intro b; cases b <;> simp [commonPrefixLen]
  | cons x xs ih =>
    intro b
    cases b with
    | nil => simp [commonPrefixLen]
    | cons y ys =>
      simp only [commonPrefixLen]
      by_cases h : x = y
      · simp [if_pos h, h, ih ys]
      · simp [if_neg h]

/-- Resolution splits over concatenation of relative paths. -/
theorem resolveRel_append (base : PathC) (xs ys : PathC) :
    resolveRel base (xs ++ ys) = resolveRel (resolveRel base xs) ys := by
  simp [resolveRel, List.foldl_append]

/-- Resolving a run of `".."` components drops that many trailing
components of the base. -/
theorem resolveRel_replicate : ∀ (m : Nat) (base : PathC),
    resolveRel base (List.replicate m dotdot) = dropLastN m base := by
  intro m
  induction m with
  | zero => intro base; rfl
  | succ n ih =>
    intro base
    simp only [List.replicate, resolveRel, List.foldl_cons, if_pos rfl]
    exact ih base.dropLast

/-- Iterated `dropLast` is a take. -/
theorem dropLastN_eq_take : ∀ (m : Nat) (l : PathC), dropLastN m l = l.take (l.length - m) := by
  intro m
  induction m with
  | zero => intro l; simp [dropLastN]
  | succ n ih =>
    intro l
    simp only [dropLastN]
    rw [ih l.dropLast, List.length_dropLast, List.dropLast_eq_take, List.take_take]
    have hmin : min (l.length - 1 - n) (l.length - 1) = l.length - (n + 1) := by omega
    rw [hmin]

/-- Resolving a relative path free of `".."` appends its components. -/
theorem resolveRel_no_dotdot : ∀ (xs : PathC) (base : PathC),
    (∀ c ∈ xs, c ≠ dotdot) → resolveRel base xs = base ++ xs := by
  intro xs
  induction xs with
  | nil => intro base _; simp [resolveRel]
  | cons x rest ih =>
    intro base h
    have hx : x ≠ dotdot := h x (List.mem_cons_self x rest)
    simp only [resolveRel, List.foldl_cons, if_neg hx]
    have := ih (base ++ [x]) (fun c hc => h c (List.mem_cons_of_mem x hc))
    simp only [resolveRel] at this
    rw [this, List.append_assoc]
    rfl

/-- Splitting a slash-free fragment yields one component. -/
theorem splitSlashAux_no_slash : ∀ (a : List Char) (acc : List Char), '/' ∉ a →
    splitSlashAux a acc = [acc.reverse ++ a] := by
  intro a
  induction a with
  | nil => intro acc _; simp [splitSlashAux]
  | cons c rest ih =>
    intro acc h
    have hc : c ≠ '/' := fun hc => h (hc ▸ List.mem_cons_self c rest)
    simp only [splitSlashAux, if_neg hc]
    rw [ih (c :: acc) (fun hm => h (List.mem_cons_of_mem c hm))]
    simp

/-- Splitting past the first slash of a slash-free head fragment peels one
component. -/
theorem splitSlashAux_cons : ∀ (a : List Char) (rest : List Char) (acc : List Char), '/' ∉ a →
    splitSlashAux (a ++ '/' :: rest) acc = (acc.reverse ++ a) :: splitSlashAux rest [] := by
  intro a
  induction a with
  | nil => intro rest acc _; simp [splitSlashAux]
  | cons c a' ih =>
    intro rest acc h
    have hc : c ≠ '/' := fun hc => h (hc ▸ List.mem_cons_self c a')
    simp only [List.cons_append, splitSlashAux, if_neg hc]
    have hrec := ih rest (c :: acc) (fun hm => h (List.mem_cons_of_mem c hm))
    simp only [List.append_eq] at hrec ⊢
    rw [hrec]
    simp

/-- Rendering a path with slash-free, nonempty, non-dot components and
splitting it back is the identity. -/
theorem splitPosix_renderPosix : ∀ (p : PathC),
    (∀ c ∈ p, c ≠ [] ∧ '/' ∉ c ∧ c ≠ chs ".") → splitPosix (renderPosix p) = p := by
  intro p
  induction p with
  | nil =>
    intro _
    rfl
  | cons c rest ih =>
    intro h
    obtain ⟨hne, hsl, hdot⟩ := h c (List.mem_cons_self c rest)
    cases rest with
    | nil =>
      simp only [renderPosix, splitPosix]
      rw [splitSlashAux_no_slash c [] hsl]
      simp [List.filter, hne, hdot]
    | cons c2 rest' =>
      simp only [renderPosix, splitPosix]
      rw [splitSlashAux_cons c (renderPosix (c2 :: rest')) [] hsl]
      have hr := ih (fun x hx => h x (List.mem_cons_of_mem c hx))
      simp only [splitPosix] at hr
      simp only [List.reverse_nil, List.nil_append, List.filter]
      rw [show (decide ¬(c = [] ∨ c = chs ".")) = true by simp [hne, hdot]]
      rw [hr]

/-- The directory created for a file is always the parent of its resolved
facade path, whatever the outcome of the scan. -/
theorem processFile_mkdir (implRel : PathC) (content : List Char) :
    (processFile implRel content).mkdirDir =
      (exportFileFor implRel (parseLines (pyReadlines content)).redirect).dropLast := by
  simp only [processFile]
  split
  · rfl
  · split <;> rfl

/-- A facade write goes to the resolved facade path and carries exactly the
writer's text for the parsed record. -/
theorem processFile_write_eq (implRel : PathC) (content : List Char) (p : PathC) (t : List Char)
    (h : (processFile implRel content).out = FileOut.write p t) :
    p = exportFileFor implRel (parseLines (pyReadlines content)).redirect ∧
    ∃ rel,
      relativeWalkUp (implP ++ implRel)
          (exportFileFor implRel (parseLines (pyReadlines content)).redirect).dropLast = some rel ∧
      t = facadeText (parseLines (pyReadlines content)).doc
            (parseLines (pyReadlines content)).items (renderPosix rel) := by
  simp only [processFile] at h
  split at h
  · simp at h
  · split at h
    · simp at h
    · rename_i rel hrel
      simp only [FileOut.write.injEq] at h
      exact ⟨h.1.symm, rel, hrel, h.2.symm⟩

/-- A file whose scan finds no public items is skipped. -/
theorem processFile_skip_of_no_items (implRel : PathC) (content : List Char)
    (h : (parseLines (pyReadlines content)).items = []) :
    (processFile implRel content).out = FileOut.skip := by
  simp [processFile, h]

/-- The per-file processing inlined in `pack.py` coincides with the one in
`typacker.py`: the two sources are textually identical there. -/
theorem packProcessFile_eq_processFile : packProcessFile = processFile := by
  funext r c
  simp only [packProcessFile, processFile, packParseLines, parseLines,
    packExportFileFor, exportFileFor, packFacadeText, facadeText]

/-- The export loop inlined in `pack.py` coincides with the one in
`typacker.py`. -/
theorem packRunFiles_eq_runFiles : ∀ files, packRunFiles files = runFiles files := by
  intro files
  induction files with
  | nil => rfl
  | cons fc rest ih =>
    cases fc with
    | mk r c => simp only [packRunFiles, runFiles, packProcessFile_eq_processFile, ih]

/-- Content of the spec's example implementation file `src/_impl/math/add.typ`. -/
def addExampleContent : List Char :=
  chs "/// Adds numbers.\n#let /* pub */ add\n#let /* pub as plus */ add2\n"

/-- Facade text the spec's example scenario claims for `src/math/add.typ`:
doc line, blank line, import list, disclaimer. -/
def addExampleClaimedText : List Char :=
  chs "/// Adds numbers.\n\n#import \"../_impl/math/add.typ\": (\n  add,\n  add2 as plus,\n)\n\n// This is a program-generated file. Do not edit it directly.\n"

/-- Facade text the code actually produces for the example file: the doc
line is missing because line 1 is consumed by the redirect check and never
re-examined. -/
def addExampleActualText : List Char :=
  chs "#import \"../_impl/math/add.typ\": (\n  add,\n  add2 as plus,\n)\n\n// This is a program-generated file. Do not edit it directly.\n"

/-- Content of a redirected implementation file with one public item. -/
def redirExampleContent : List Char :=
  chs "// -> shortcuts.typ\n#let /* pub */ f\n"

/-- Facade text produced for `redirExampleContent` placed at
`src/_impl/deep/nested/file.typ`. -/
def redirExampleText : List Char :=
  chs "#import \"_impl/deep/nested/file.typ\": (\n  f,\n)\n\n// This is a program-generated file. Do not edit it directly.\n"

/-- C1: counterexample to the claim that a first line failing the redirect
check is reinterpreted as line 1 of the doc/declaration scan.  A file whose
first line is the doc line `/// Adds numbers.` parses to an empty doc
block, and a file whose only line is a matching public declaration parses
to an empty item list: the first line is recognized as neither. -/
theorem c1_first_line_reinterpreted_false :
    (parseLines (pyReadlines (chs "/// Adds numbers.\n#let /* pub */ add\n"))).doc = [] ∧
    (parseLines (pyReadlines (chs "#let /* pub */ x\n"))).items = [] := by
  constructor <;> rfl

/-- C1 (amended): line 1 is consumed by the redirect check regardless of
match, and when it does not match it is discarded, not reinterpreted: the
doc/declaration scan starts at line 2, so the parsed doc block and item
list do not depend on the first line at all. -/
theorem c1_first_line_discarded (l1 l1' : List Char) (rest : List (List Char)) :
    (parseLines (l1 :: rest)).doc = (parseLines (l1' :: rest)).doc ∧
    (parseLines (l1 :: rest)).items = (parseLines (l1' :: rest)).items :=
  ⟨rfl, rfl⟩

/-- C2: counterexample to the claimed end-to-end example: for the
three-line `add.typ` file, the generated facade does not carry the claimed
content (doc line, blank line, import list, disclaimer). -/
theorem c2_example_facade_text_false :
    (processFile [chs "math", chs "add.typ"] addExampleContent).out ≠
      FileOut.write [chs "src", chs "math", chs "add.typ"] addExampleClaimedText := by
  decide

/-- C2 (amended): for the example file `src/_impl/math/add.typ`, the
generator writes the facade at `src/math/add.typ` with an import from
`../_impl/math/add.typ` listing `add,` then `add2 as plus,`, the list
closing, a blank line and the disclaimer line — but without the doc line
and its following blank line, since the first line is consumed by the
redirect check and discarded. -/
theorem c2_example_facade_text :
    processFile [chs "math", chs "add.typ"] addExampleContent =
      ⟨[chs "src", chs "math"],
        FileOut.write [chs "src", chs "math", chs "add.typ"] addExampleActualText⟩ := by
  rfl

/-- C3: counterexample to the claim that every project root lacking
`typst.toml` or `src/_impl` sees no facade created or modified by an
invocation of the generator: the `pack.py` script runs its export section
before ever opening `typst.toml`, so on a root with `src/_impl` present,
one annotated implementation file and no `typst.toml`, it creates the
facade at `src/a.typ` and only afterwards dies on the metadata load. -/
theorem c3_abort_before_writes_false :
    ((⟨false, true, [([chs "a.typ"], chs "x\n#let /* pub */ f\n")]⟩ : Project).hasToml = false) ∧
    (packMain ⟨false, true, [([chs "a.typ"], chs "x\n#let /* pub */ f\n")]⟩).tomlLoaded = false ∧
    applyWrites (fun _ => none)
        (packMain ⟨false, true, [([chs "a.typ"], chs "x\n#let /* pub */ f\n")]⟩).run.writes
        [chs "src", chs "a.typ"] ≠ none := by
  decide

/-- C3 (amended): the structural check lives only in `typacker.py`: its
`generate_export` aborts with an error before any facade is written when
`typst.toml` or `src/_impl` is missing, leaving every filesystem path
unchanged; the `pack.py` script performs no structural check — its facade
writes are exactly those of its export loop over the enumerated files,
independent of the presence of `typst.toml`, which is opened only after
the loop (and a missing `src/_impl` aborts nothing: the loop just
enumerates no files). -/
theorem c3_structural_error_typacker_only (p : Project) (fs : FileSys) (q : PathC)
    (h : p.hasToml = false ∨ p.hasImplDir = false) :
    ((∃ msg, generate_export p = Except.error msg) ∧ runOnFS fs p q = fs q) ∧
    (packMain p).run = (packMain ⟨true, p.hasImplDir, p.implFiles⟩).run := by
  refine ⟨?_, rfl⟩
  have herr : ∃ msg, generate_export p = Except.error msg := by
    cases ht : p.hasToml with
    | false =>
      refine ⟨chs "`typst.toml` not found in project directory. Not a valid Typst package.", ?_⟩
      simp [generate_export, ensure_typst_project, ht]
    | true =>
      cases hi : p.hasImplDir with
      | false =>
        refine ⟨chs "`src/_impl` directory not found in project directory. Not a valid Typst package.", ?_⟩
        simp [generate_export, ensure_typst_project, ht, hi]
      | true => simp [ht, hi] at h
  obtain ⟨msg, hmsg⟩ := herr
  exact ⟨⟨msg, hmsg⟩, by simp [runOnFS, hmsg]⟩

/-- C3 witness: on a concrete project lacking `typst.toml`,
`generate_export` errors and leaves a concrete filesystem untouched at a
concrete path, while the `pack.py` script's export effects coincide with
those on the same project with `typst.toml` present. -/
theorem c3_structural_error_typacker_only_witness :
    ((∃ msg, generate_export ⟨false, true, [([chs "a.typ"], chs "#let /* pub */ f\n")]⟩ =
        Except.error msg) ∧
      runOnFS (fun _ => none) ⟨false, true, [([chs "a.typ"], chs "#let /* pub */ f\n")]⟩
          [chs "src", chs "a.typ"] =
        (fun _ => none : FileSys) [chs "src", chs "a.typ"]) ∧
    (packMain ⟨false, true, [([chs "a.typ"], chs "#let /* pub */ f\n")]⟩).run =
      (packMain ⟨true, true, [([chs "a.typ"], chs "#let /* pub */ f\n")]⟩).run :=
  c3_structural_error_typacker_only ⟨false, true, [([chs "a.typ"], chs "#let /* pub */ f\n")]⟩
    (fun _ => none) [chs "src", chs "a.typ"] (Or.inl rfl)

/-- C4: redirect precedence for the facade path of any written facade:
with a redirect destination `d` on line 1, the path is `src` joined with
`d` (taken verbatim, trimmed), regardless of the file's mirrored location
or depth; without a redirect, the path is `src` joined with the file's
path relative to `src/_impl`. -/
theorem c4_redirect_precedence (implRel : PathC) (content : List Char)
    (d : List Char) (p : PathC) (t : List Char)
    (hwrite : (processFile implRel content).out = FileOut.write p t) :
    ((parseLines (pyReadlines content)).redirect = some d → p = srcP ++ splitPosix d) ∧
    ((parseLines (pyReadlines content)).redirect = none → p = srcP ++ implRel) := by
  have hp := (processFile_write_eq implRel content p t hwrite).1
  constructor
  · intro hr
    rw [hp, hr]
    rfl
  · intro hr
    rw [hp, hr]
    rfl

/-- C4 witness: the spec's redirect example, a deeply nested file whose
first line is `// -> shortcuts.typ`, gets its facade at
`src/shortcuts.typ`, not at its mirrored location. -/
theorem c4_redirect_precedence_witness :
    ((parseLines (pyReadlines redirExampleContent)).redirect = some (chs "shortcuts.typ") →
      [chs "src", chs "shortcuts.typ"] = srcP ++ splitPosix (chs "shortcuts.typ")) ∧
    ((parseLines (pyReadlines redirExampleContent)).redirect = none →
      [chs "src", chs "shortcuts.typ"] = srcP ++ [chs "deep", chs "nested", chs "file.typ"]) :=
  c4_redirect_precedence [chs "deep", chs "nested", chs "file.typ"] redirExampleContent
    (chs "shortcuts.typ") [chs "src", chs "shortcuts.typ"] redirExampleText (by decide)

/-- C5: idempotence of the generator: applying one invocation's facade
writes again over the resulting filesystem changes no path, so running the
generator twice over the same project with unchanged implementation
sources produces byte-identical facade files. -/
theorem c5_generator_idempotent (p : Project) (fs : FileSys) (q : PathC) :
    runOnFS (runOnFS fs p) p q = runOnFS fs p q := by
  cases hg : generate_export p with
  | error e => simp [runOnFS, hg]
  | ok r => simp [runOnFS, hg, applyWrites_idem]

/-- C6: relative-import round-trip law: for any target path and base
directory free of `".."` components (with ordinary components: nonempty,
slash-free, not `"."`), the `walk_up` relative path computation succeeds,
and its forward-slash rendering, split back into components and resolved
from the base directory with `".."` walking up, lands exactly on the
target.  Instantiated in the generator with the implementation file as
target and the facade's parent directory as base. -/
theorem c6_relative_import_round_trip (self other : PathC)
    (h1 : dotdot ∉ self) (h2 : dotdot ∉ other)
    (h3 : ∀ c ∈ self, c ≠ [] ∧ '/' ∉ c ∧ c ≠ chs ".") :
    ∃ rel, relativeWalkUp self other = some rel ∧
      resolveRel other (splitPosix (renderPosix rel)) = self := by
  have hguard : dotdot ∉ other.drop (commonPrefixLen self other) :=
    fun hm => h2 (List.drop_subset _ _ hm)
  refine ⟨List.replicate (other.length - commonPrefixLen self other) dotdot ++
    self.drop (commonPrefixLen self other), ?_, ?_⟩
  · simp only [relativeWalkUp]
    rw [if_neg hguard]
  · have hrel : splitPosix (renderPosix (List.replicate (other.length - commonPrefixLen self other) dotdot ++
        self.drop (commonPrefixLen self other))) =
        List.replicate (other.length - commonPrefixLen self other) dotdot ++
          self.drop (commonPrefixLen self other) := by
      apply splitPosix_renderPosix
      intro c hc
      rcases List.mem_append.1 hc with hc | hc
      · rw [List.eq_of_mem_replicate hc]
        refine ⟨by decide, by decide, by decide⟩
      · exact h3 c (List.drop_subset _ _ hc)
    rw [hrel, resolveRel_append, resolveRel_replicate, dropLastN_eq_take,
      Nat.sub_sub_self (commonPrefixLen_le_right self other),
      ← take_commonPrefixLen_eq self other,
      resolveRel_no_dotdot _ _
        (fun c hc hcd => h1 (hcd ▸ List.drop_subset _ _ hc)),
      List.take_append_drop]

/-- C6 witness: the example geometry of the generator, target
`src/_impl/math/add.typ` from base `src/math`, round-trips. -/
theorem c6_relative_import_round_trip_witness :
    ∃ rel, relativeWalkUp [chs "src", chs "_impl", chs "math", chs "add.typ"]
        [chs "src", chs "math"] = some rel ∧
      resolveRel [chs "src", chs "math"] (splitPosix (renderPosix rel)) =
        [chs "src", chs "_impl", chs "math", chs "add.typ"] :=
  c6_relative_import_round_trip [chs "src", chs "_impl", chs "math", chs "add.typ"]
    [chs "src", chs "math"] (by decide) (by decide) (by decide)

/-- C7: every written facade's text consists of the optional doc block,
the import header, then exactly one entry per parsed public item in
declaration order — `  name,` without an alias, `  name as alias,` with one — then the
closing of the list, a blank line and the disclaimer. -/
theorem c7_import_list_order_and_format (implRel : PathC) (content : List Char)
    (p : PathC) (t : List Char)
    (hwrite : (processFile implRel content).out = FileOut.write p t) :
    ∃ rel, t =
      (if (parseLines (pyReadlines content)).doc.isEmpty then []
        else (parseLines (pyReadlines content)).doc ++ chs "\n\n") ++
      (chs "#import \"" ++ rel ++ chs "\": (\n") ++
      ((parseLines (pyReadlines content)).items.map itemLine).flatten ++
      (chs ")\n\n" ++ disclaimer) := by
  obtain ⟨-, rel, -, ht⟩ := processFile_write_eq implRel content p t hwrite
  refine ⟨renderPosix rel, ?_⟩
  rw [ht]
  simp only [facadeText, foldl_itemLine]
  simp [List.append_assoc]

/-- C7 witness: the example file's facade text decomposes into header,
the two entries in declaration order, and trailer. -/
theorem c7_import_list_order_and_format_witness :
    ∃ rel, addExampleActualText =
      (if (parseLines (pyReadlines addExampleContent)).doc.isEmpty then []
        else (parseLines (pyReadlines addExampleContent)).doc ++ chs "\n\n") ++
      (chs "#import \"" ++ rel ++ chs "\": (\n") ++
      ((parseLines (pyReadlines addExampleContent)).items.map itemLine).flatten ++
      (chs ")\n\n" ++ disclaimer) :=
  c7_import_list_order_and_format [chs "math", chs "add.typ"] addExampleContent
    [chs "src", chs "math", chs "add.typ"] addExampleActualText (by decide)

/-- C8: an implementation file whose scan yields zero public items is
skipped (its outcome is no write), and a path to which no write of the run
goes — in particular the would-be facade path of such a skipped file when
no other file writes there — keeps its previous filesystem contents. -/
theorem c8_zero_items_skip (implRel : PathC) (content : List Char)
    (files : List (PathC × List Char)) (fs : FileSys) (q : PathC)
    (h0 : (parseLines (pyReadlines content)).items = [])
    (h1 : ∀ w ∈ (runFiles files).writes, w.1 ≠ q) :
    (processFile implRel content).out = FileOut.skip ∧
      applyWrites fs (runFiles files).writes q = fs q :=
  ⟨processFile_skip_of_no_items implRel content h0,
    applyWrites_frame (runFiles files).writes fs q h1⟩

/-- C8 witness: a run over one zero-item file writes nothing and leaves
its would-be facade path `src/a.typ` untouched. -/
theorem c8_zero_items_skip_witness :
    (processFile [chs "a.typ"] (chs "nothing here\n")).out = FileOut.skip ∧
      applyWrites (fun _ => none) (runFiles [([chs "a.typ"], chs "nothing here\n")]).writes
          [chs "src", chs "a.typ"] =
        (fun _ => none : FileSys) [chs "src", chs "a.typ"] :=
  c8_zero_items_skip [chs "a.typ"] (chs "nothing here\n")
    [([chs "a.typ"], chs "nothing here\n")] (fun _ => none) [chs "src", chs "a.typ"]
    (by decide) (by decide)

/-- C9: in a run that does not die mid-loop, every enumerated
implementation file — including files with zero public declarations, for
which no facade is written — contributes the creation of its resolved
facade path's parent directory, performed before the file's declarations
are scanned. -/
theorem c9_mkdir_for_every_file (files : List (PathC × List Char))
    (hok : (runFiles files).crashed = false) :
    (runFiles files).mkdirs =
      files.map (fun fc =>
        (exportFileFor fc.1 (parseLines (pyReadlines fc.2)).redirect).dropLast) := by
  induction files with
  | nil => rfl
  | cons fc rest ih =>
    cases fc with
    | mk r c =>
      cases ho : (processFile r c).out with
      | crash => simp [runFiles, ho] at hok
      | skip =>
        simp only [runFiles, ho] at hok ⊢
        rw [List.map_cons, ← processFile_mkdir, ih hok]
      | write p t =>
        simp only [runFiles, ho] at hok ⊢
        rw [List.map_cons, ← processFile_mkdir, ih hok]

/-- C9 witness: a run over one file with no public items still creates the
parent directory of its would-be facade. -/
theorem c9_mkdir_for_every_file_witness :
    (runFiles [([chs "a.typ"], chs "x\n")]).mkdirs =
      [([chs "a.typ"], chs "x\n")].map (fun fc =>
        (exportFileFor fc.1 (parseLines (pyReadlines fc.2)).redirect).dropLast) :=
  c9_mkdir_for_every_file [([chs "a.typ"], chs "x\n")] (by decide)

/-- C10: on every project tree holding both `typst.toml` and `src/_impl`,
`generate_export` of `typacker.py` produces exactly the run of the
export-generation section of `pack.py`: same facade files, byte-identical
contents, same directories, same termination. -/
theorem c10_pack_equiv_generate_export (p : Project)
    (h1 : p.hasToml = true) (h2 : p.hasImplDir = true) :
    generate_export p = Except.ok (packRunFiles p.implFiles) := by
  simp [generate_export, ensure_typst_project, h1, h2, packRunFiles_eq_runFiles]

/-- C10 witness: the two implementations agree on a concrete valid
project. -/
theorem c10_pack_equiv_generate_export_witness :
    generate_export ⟨true, true, [([chs "a.typ"], chs "#let /* pub */ f\n")]⟩ =
      Except.ok (packRunFiles [([chs "a.typ"], chs "#let /* pub */ f\n")]) :=
  c10_pack_equiv_generate_export ⟨true, true, [([chs "a.typ"], chs "#let /* pub */ f\n")]⟩
    rfl rfl
